import Mathlib

set_option maxHeartbeats 1000000

/-!
Verification of the scroll-driven 3D visualization core: the seeded
Poisson-disc point sampler, the topology builders (internal, inter-layer and
random-subset edges) and the scroll state machine (layer opacities, edge-group
growth and opacity curves, blackout target, camera targets).

Numbers are modelled as exact rationals.  The transcendental library
functions the code calls (Math.cos, Math.sin, Math.sqrt, Math.atan2, Math.PI)
are abstracted into a MathOps parameter pack, so every structural theorem is
proved for every interpretation of those functions; concrete witnesses use
ratOps, rational approximations defined below (Taylor polynomials for cos and
sin, Newton iteration for sqrt).
-/

/-- A 3D node position, as produced by the samplers. -/
structure Pt where
  x : ℚ
  y : ℚ
  z : ℚ
deriving DecidableEq, Repr

instance : Inhabited Pt := ⟨⟨0, 0, 0⟩⟩

/-- The math library functions the source calls, abstracted. -/
structure MathOps where
  cos : ℚ → ℚ
  sin : ℚ → ℚ
  sqrt : ℚ → ℚ
  atan2 : ℚ → ℚ → ℚ
  pi : ℚ

/-- One step of the seeded linear-congruential generator of seededRandom:
state becomes (state * 9301 + 49297) mod 233280 and the output is
state / 233280. -/
def rngStep (state : ℕ) : ℚ × ℕ :=
  let s := (state * 9301 + 49297) % 233280
  ((s : ℚ) / 233280, s)

theorem rngStep_fst_nonneg (st : ℕ) : 0 ≤ (rngStep st).1 := by
  unfold rngStep
  positivity

theorem rngStep_fst_lt_one (st : ℕ) : (rngStep st).1 < 1 := by
  unfold rngStep
  have h : (st * 9301 + 49297) % 233280 < 233280 := Nat.mod_lt _ (by norm_num)
  simp only
  rw [div_lt_one (by norm_num)]
  exact_mod_cast h

/-- Index drawn as floor of rng times the list length stays in bounds. -/
theorem floor_mul_length_lt {q : ℚ} (hq0 : 0 ≤ q) (hq1 : q < 1) {n : ℕ} (hn : n ≠ 0) :
    ⌊q * (n : ℚ)⌋₊ < n := by
  rw [Nat.floor_lt (by positivity)]
  have hn' : (0 : ℚ) < n := by exact_mod_cast Nat.pos_of_ne_zero hn
  calc q * (n : ℚ) < 1 * n := by exact mul_lt_mul_of_pos_right hq1 hn'
  _ = n := one_mul _

/-- The validity predicate of the Poisson-disc sampler (isValid in
LayerNodes.jsx and InterLayerLines.jsx, identical in both): the candidate
(x, z) must lie in the annulus and be at least minDist away from every
already accepted point. -/
def isValid (ops : MathOps) (radius minDist : ℚ) (x z : ℚ) (points : List Pt) : Bool :=
  let distFromCenter := ops.sqrt (x * x + z * z)
  if distFromCenter > radius ∨ distFromCenter < radius * 0.15 then false
  else points.all fun p =>
    let dx := x - p.x
    let dz := z - p.z
    !(decide (ops.sqrt (dx * dx + dz * dz) < minDist))

/-- The inner attempt loop of the sampler: up to n random candidates around
the active point (px, pz); the first valid one is returned. -/
def tryAttempts (ops : MathOps) (radius minDist : ℚ) (px pz : ℚ) (temp : List Pt) :
    ℕ → ℕ → Option (ℚ × ℚ) × ℕ
  | 0, st => (none, st)
  | n + 1, st =>
    let r1 := rngStep st
    let angle := r1.1 * ops.pi * 2
    let r2 := rngStep r1.2
    let dist := minDist * (1 + r2.1)
    let newX := px + ops.cos angle * dist
    let newZ := pz + ops.sin angle * dist
    if isValid ops radius minDist newX newZ temp then (some (newX, newZ), r2.2)
    else tryAttempts ops radius minDist px pz temp n r2.2

/-- The main Poisson-disc loop of LayerNodes.jsx: while the active list is
nonempty and fewer than count points are accepted, pick a random active
point, attempt up to 30 candidates around it; on success the new point (with
random small y jitter) joins both lists, on failure the active point is
removed. -/
def sampleLoop (ops : MathOps) (count : ℕ) (radius minDist : ℚ)
    (temp : List Pt) (active : List Pt) (st : ℕ) : List Pt :=
  if h : active.length ≠ 0 ∧ temp.length < count then
    let r := rngStep st
    let randIndex := ⌊r.1 * (active.length : ℚ)⌋₊
    let point := active.getD randIndex default
    match tryAttempts ops radius minDist point.x point.z temp 30 r.2 with
    | (some nxz, st2) =>
      let ry := rngStep st2
      let newPoint : Pt := ⟨nxz.1, (ry.1 - 0.5) * 0.1, nxz.2⟩
      sampleLoop ops count radius minDist (temp ++ [newPoint]) (active ++ [newPoint]) ry.2
    | (none, st2) =>
      sampleLoop ops count radius minDist temp (active.eraseIdx randIndex) st2
  else temp
termination_by (count - temp.length, active.length)
decreasing_by
  · apply Prod.Lex.left
    simp only [List.length_append, List.length_singleton]
    omega
  · have hidx : ⌊(rngStep st).1 * (active.length : ℚ)⌋₊ < active.length :=
      floor_mul_length_lt (rngStep_fst_nonneg st) (rngStep_fst_lt_one st) h.1
    have hlen : (active.eraseIdx ⌊(rngStep st).1 * (active.length : ℚ)⌋₊).length
        = active.length - 1 := List.length_eraseIdx_of_lt hidx
    have : (active.eraseIdx ⌊(rngStep st).1 * (active.length : ℚ)⌋₊).length < active.length := by
      omega
    exact Prod.Lex.right _ this

/-- One seed point of the sampler: i-th of 5 points evenly spaced on the
circle of radius 0.4 * radius, with small random y jitter a. -/
def seedPoint (ops : MathOps) (radius : ℚ) (i : ℕ) (a : ℚ) : Pt :=
  let angle := ((i : ℚ) / 5) * ops.pi * 2
  let r := radius * 0.4
  ⟨r * ops.cos angle, (a - 0.5) * 0.1, r * ops.sin angle⟩

/-- The five unconditional seed points of the sampler, drawing one rng value
each for the y jitter. -/
def seedPoints (ops : MathOps) (radius : ℚ) (st0 : ℕ) : List Pt × ℕ :=
  let r0 := rngStep st0
  let r1 := rngStep r0.2
  let r2 := rngStep r1.2
  let r3 := rngStep r2.2
  let r4 := rngStep r3.2
  ([seedPoint ops radius 0 r0.1, seedPoint ops radius 1 r1.1, seedPoint ops radius 2 r2.1,
    seedPoint ops radius 3 r3.1, seedPoint ops radius 4 r4.1], r4.2)

/-- The particle generation of LayerNodes.jsx: Poisson-disc sampling seeded
from the given seed, with minimum distance radius / sqrt(count) * 1.8. -/
def generateNodes (ops : MathOps) (count : ℕ) (radius : ℚ) (seed : ℕ) : List Pt :=
  let minDist := radius / ops.sqrt (count : ℚ) * 1.8
  let s := seedPoints ops radius seed
  sampleLoop ops count radius minDist s.1 s.1 s.2

/-- The main Poisson-disc loop of generateNodePositions in
InterLayerLines.jsx.  Identical to sampleLoop except that entries pushed to
the active list keep only their x and z fields (the source pushes plain
(x, z) records there); the y jitter is still drawn for the accepted point. -/
def sampleLoop2 (ops : MathOps) (count : ℕ) (radius minDist : ℚ)
    (temp : List Pt) (active : List (ℚ × ℚ)) (st : ℕ) : List Pt :=
  if h : active.length ≠ 0 ∧ temp.length < count then
    let r := rngStep st
    let randIndex := ⌊r.1 * (active.length : ℚ)⌋₊
    let point := active.getD randIndex default
    match tryAttempts ops radius minDist point.1 point.2 temp 30 r.2 with
    | (some nxz, st2) =>
      let ry := rngStep st2
      sampleLoop2 ops count radius minDist (temp ++ [⟨nxz.1, (ry.1 - 0.5) * 0.1, nxz.2⟩])
        (active ++ [(nxz.1, nxz.2)]) ry.2
    | (none, st2) =>
      sampleLoop2 ops count radius minDist temp (active.eraseIdx randIndex) st2
  else temp
termination_by (count - temp.length, active.length)
decreasing_by
  · apply Prod.Lex.left
    simp only [List.length_append, List.length_singleton]
    omega
  · have hidx : ⌊(rngStep st).1 * (active.length : ℚ)⌋₊ < active.length :=
      floor_mul_length_lt (rngStep_fst_nonneg st) (rngStep_fst_lt_one st) h.1
    have hlen : (active.eraseIdx ⌊(rngStep st).1 * (active.length : ℚ)⌋₊).length
        = active.length - 1 := List.length_eraseIdx_of_lt hidx
    have : (active.eraseIdx ⌊(rngStep st).1 * (active.length : ℚ)⌋₊).length < active.length := by
      omega
    exact Prod.Lex.right _ this

/-- generateNodePositions of InterLayerLines.jsx: same seed points and the
same loop, with the active list holding (x, z) records. -/
def generateNodePositions (ops : MathOps) (count : ℕ) (radius : ℚ) (seed : ℕ) : List Pt :=
  let minDist := radius / ops.sqrt (count : ℚ) * 1.8
  let s := seedPoints ops radius seed
  sampleLoop2 ops count radius minDist s.1 (s.1.map fun p => (p.x, p.z)) s.2

theorem eraseIdx_map_comm (f : α → β) : ∀ (l : List α) (i : ℕ),
    (l.map f).eraseIdx i = (l.eraseIdx i).map f
  | [], _ => rfl
  | _ :: _, 0 => rfl
  | a :: l, i + 1 => by
    simp only [List.map_cons, List.eraseIdx_cons_succ, List.map_cons, eraseIdx_map_comm f l i]

/-- The two Poisson-disc loops agree when the second one's active list is the
(x, z) projection of the first one's. -/
theorem sampleLoop2_map_eq (ops : MathOps) (count : ℕ) (radius minDist : ℚ)
    (temp active : List Pt) (st : ℕ) :
    sampleLoop2 ops count radius minDist temp (active.map fun p => (p.x, p.z)) st
      = sampleLoop ops count radius minDist temp active st := by
  induction temp, active, st using sampleLoop.induct ops count radius minDist with
  | case1 temp active st h r randIndex point nxz st2 heq ry newPoint ih =>
    rw [sampleLoop2, sampleLoop]
    rw [dif_pos (by simpa using h), dif_pos h]
    have hdef : (default : ℚ × ℚ) = ((default : Pt).x, (default : Pt).z) := rfl
    simp only [List.length_map, hdef, List.getD_map]
    rw [heq]
    dsimp only
    simp only [List.map_append, List.map_cons, List.map_nil] at ih
    exact ih
  | case2 temp active st h r randIndex point st2 heq ih =>
    rw [sampleLoop2, sampleLoop]
    rw [dif_pos (by simpa using h), dif_pos h]
    have hdef : (default : ℚ × ℚ) = ((default : Pt).x, (default : Pt).z) := rfl
    simp only [List.length_map, hdef, List.getD_map]
    rw [heq]
    dsimp only
    rw [eraseIdx_map_comm]
    exact ih
  | case3 temp active st h =>
    rw [sampleLoop2, sampleLoop]
    rw [dif_neg (by simpa using h), dif_neg h]

/-- Claim C2: node generation is a pure function of (count, radius, seed) and
the two independent sampler implementations (the particle generation of
LayerNodes.jsx and generateNodePositions of InterLayerLines.jsx) return the
identical node sequence for every count, radius and seed, under every
interpretation of the math library functions.  Determinism across repeated
calls is definitional in this pure embedding. -/
theorem c2_sampler_implementations_agree (ops : MathOps) (count : ℕ) (radius : ℚ) (seed : ℕ) :
    generateNodePositions ops count radius seed = generateNodes ops count radius seed := by
  unfold generateNodePositions generateNodes
  exact sampleLoop2_map_eq ops count radius _ _ _ _

theorem seedPoints_length (ops : MathOps) (radius : ℚ) (st : ℕ) :
    (seedPoints ops radius st).1.length = 5 := rfl

theorem sampleLoop_of_le (ops : MathOps) {count : ℕ} (radius minDist : ℚ)
    (temp active : List Pt) (st : ℕ) (h : count ≤ temp.length) :
    sampleLoop ops count radius minDist temp active st = temp := by
  rw [sampleLoop, dif_neg]
  omega

/-- When count is at most 5 the loop never runs: the sampler returns exactly
the five seed points. -/
theorem generateNodes_of_count_le (ops : MathOps) {count : ℕ} (radius : ℚ) (seed : ℕ)
    (h : count ≤ 5) : generateNodes ops count radius seed = (seedPoints ops radius seed).1 := by
  unfold generateNodes
  exact sampleLoop_of_le ops radius _ _ _ _ (by rw [seedPoints_length]; exact h)

/-- Rational stand-ins for the math library used on concrete inputs: pi as
355/113, cos and sin as their exact-coefficient Taylor polynomials (accurate
well below 0.001 on the angle range 0 to 2 pi the code uses), sqrt by Newton
iteration from above, atan2 through an arctangent series (the code only calls
it with positive x). -/
def ratPi : ℚ := 355 / 113

def ratCos (x : ℚ) : ℚ :=
  1 - x ^ 2 / 2 + x ^ 4 / 24 - x ^ 6 / 720 + x ^ 8 / 40320 - x ^ 10 / 3628800
    + x ^ 12 / 479001600 - x ^ 14 / 87178291200 + x ^ 16 / 20922789888000
    - x ^ 18 / 6402373705728000

def ratSin (x : ℚ) : ℚ :=
  x - x ^ 3 / 6 + x ^ 5 / 120 - x ^ 7 / 5040 + x ^ 9 / 362880 - x ^ 11 / 39916800
    + x ^ 13 / 6227020800 - x ^ 15 / 1307674368000 + x ^ 17 / 355687428096000

def ratSqrtIter (q : ℚ) : ℕ → ℚ → ℚ
  | 0, x => x
  | n + 1, x => ratSqrtIter q n ((x + q / x) / 2)

def ratSqrt (q : ℚ) : ℚ := if q ≤ 0 then 0 else ratSqrtIter q 6 ((q + 1) / 2)

def ratAtanPoly (t : ℚ) : ℚ :=
  t - t ^ 3 / 3 + t ^ 5 / 5 - t ^ 7 / 7 + t ^ 9 / 9 - t ^ 11 / 11 + t ^ 13 / 13

def ratAtan (t : ℚ) : ℚ :=
  if t ≤ 1 ∧ -1 ≤ t then ratAtanPoly t
  else if 1 < t then ratPi / 2 - ratAtanPoly (1 / t)
  else -(ratPi / 2) - ratAtanPoly (1 / t)

def ratAtan2 (y x : ℚ) : ℚ := if 0 < x then ratAtan (y / x) else 0

def ratOps : MathOps := ⟨ratCos, ratSin, ratSqrt, ratAtan2, ratPi⟩

/-- The loop adds points only while fewer than count are accepted, so its
result has at most max of the starting length and count points. -/
theorem sampleLoop_length_le (ops : MathOps) (count : ℕ) (radius minDist : ℚ)
    (temp active : List Pt) (st : ℕ) :
    (sampleLoop ops count radius minDist temp active st).length ≤ max temp.length count := by
  induction temp, active, st using sampleLoop.induct ops count radius minDist with
  | case1 temp active st h r randIndex point nxz st2 heq ry newPoint ih =>
    rw [sampleLoop, dif_pos h]
    dsimp only
    rw [heq]
    dsimp only
    refine le_trans ih ?_
    simp only [List.length_append, List.length_singleton]
    omega
  | case2 temp active st h r randIndex point st2 heq ih =>
    rw [sampleLoop, dif_pos h]
    dsimp only
    rw [heq]
    exact ih
  | case3 temp active st h =>
    rw [sampleLoop, dif_neg h]
    exact Nat.le_max_left _ _

/-- Claim C3 (amended): the sampler returns at most max(count, 5) points; the
five seed points are emitted unconditionally, and for count of at least 5 the
result has at most count points (possibly fewer). -/
theorem c3_at_most_max_count_five (ops : MathOps) (count : ℕ) (radius : ℚ) (seed : ℕ) :
    (generateNodes ops count radius seed).length ≤ max count 5 := by
  unfold generateNodes
  dsimp only
  have h := sampleLoop_length_le ops count radius
    (radius / ops.sqrt (count : ℚ) * 1.8) (seedPoints ops radius seed).1
    (seedPoints ops radius seed).1 (seedPoints ops radius seed).2
  rw [seedPoints_length] at h
  omega

/-- Claim C3 counterexample: with count 3 the sampler still returns its 5
unconditional seed points, more than the requested count. -/
theorem c3_counterexample : ¬ ((generateNodes ratOps 3 1 0).length ≤ 3) := by
  rw [generateNodes_of_count_le ratOps 1 0 (by norm_num), seedPoints_length]
  omega

/-- THREE.MathUtils.lerp: x plus (y minus x) times t. -/
def lerpQ (x y t : ℚ) : ℚ := x + (y - x) * t

/-- THREE.MathUtils.clamp: max of the lower bound and min of the upper bound
and the value. -/
def clampQ (value lo hi : ℚ) : ℚ := max lo (min hi value)

/-- The fixed pause before each line group starts growing (Experience
useFrame). -/
def LAYER_PAUSE : ℚ := 0.03

/-- The opacity floor connecting lines keep after their phase (Experience
useFrame). -/
def FADED_OPACITY : ℚ := 0.1

/-- Foundation layer opacity: always 1 (Experience useFrame). -/
def layer1Opacity (_offset : ℚ) : ℚ := 1

/-- Network layer opacity as a function of scroll offset (Experience
useFrame). -/
def layer2Opacity (offset : ℚ) : ℚ :=
  if offset < 0.14 then 1
  else if offset < 0.18 then 1 - (offset - 0.14) / (0.18 - 0.14)
  else if offset < 0.30 then 0
  else if offset < 0.38 then (offset - 0.30) / 0.08
  else 1

/-- Apps (ecosystem) layer opacity as a function of scroll offset (Experience
useFrame). -/
def layer3Opacity (offset : ℚ) : ℚ :=
  if offset < 0.14 then 1
  else if offset < 0.18 then 1 - (offset - 0.14) / (0.18 - 0.14)
  else if offset < 0.53 then 0
  else if offset < 0.61 then (offset - 0.53) / 0.08
  else if offset < 0.85 then 1
  else 1 - (offset - 0.85) / 0.03

/-- Growth fraction of the foundation-to-network line group (Experience
useFrame). -/
def foundationToNetworkGrowth (offset : ℚ) : ℚ :=
  if offset < 0.18 then 0
  else if offset < 0.18 + LAYER_PAUSE then 0
  else if offset < 0.35 then (offset - 0.18 - LAYER_PAUSE) / (0.17 - LAYER_PAUSE)
  else 1

/-- Opacity of the foundation-to-network line group (Experience useFrame). -/
def foundationToNetworkOpacity (offset : ℚ) : ℚ :=
  if offset < 0.18 then 0
  else if offset < 0.18 + LAYER_PAUSE then 0
  else if offset < 0.35 then min 1 ((offset - 0.18 - LAYER_PAUSE) / (0.17 - LAYER_PAUSE) * 2)
  else if offset < 0.38 then lerpQ 1 FADED_OPACITY ((offset - 0.35) / 0.03)
  else FADED_OPACITY

/-- Growth fraction of the network-to-ecosystem line group (Experience
useFrame). -/
def networkToEcosystemGrowth (offset : ℚ) : ℚ :=
  if offset < 0.38 then 0
  else if offset < 0.38 + LAYER_PAUSE then 0
  else if offset < 0.58 then (offset - 0.38 - LAYER_PAUSE) / (0.20 - LAYER_PAUSE)
  else 1

/-- Opacity of the network-to-ecosystem line group (Experience useFrame). -/
def networkToEcosystemOpacity (offset : ℚ) : ℚ :=
  if offset < 0.38 then 0
  else if offset < 0.38 + LAYER_PAUSE then 0
  else if offset < 0.58 then min 1 ((offset - 0.38 - LAYER_PAUSE) / (0.20 - LAYER_PAUSE) * 2)
  else if offset < 0.61 then lerpQ 1 FADED_OPACITY ((offset - 0.58) / 0.03)
  else FADED_OPACITY

/-- Growth fraction of the ecosystem upward line group (Experience
useFrame). -/
def ecosystemUpwardGrowth (offset : ℚ) : ℚ :=
  if offset < 0.61 then 0
  else if offset < 0.61 + LAYER_PAUSE then 0
  else if offset < 0.78 then (offset - 0.61 - LAYER_PAUSE) / (0.17 - LAYER_PAUSE)
  else 1

/-- Opacity of the ecosystem upward line group (Experience useFrame). -/
def ecosystemUpwardOpacity (offset : ℚ) : ℚ :=
  if offset < 0.61 then 0
  else if offset < 0.61 + LAYER_PAUSE then 0
  else if offset < 0.78 then min 1 ((offset - 0.61 - LAYER_PAUSE) / (0.17 - LAYER_PAUSE) * 2)
  else 1

/-- The desktop blackout animation target of MainApp: BLACKOUT_START is 0.80
and BLACKOUT_END is 0.82. -/
def BLACKOUT_START : ℚ := 0.80

def BLACKOUT_END : ℚ := 0.82

def blackoutTarget (scrollProgress : ℚ) : ℚ :=
  if BLACKOUT_START ≤ scrollProgress ∧ scrollProgress < BLACKOUT_END then
    (scrollProgress - BLACKOUT_START) / (BLACKOUT_END - BLACKOUT_START)
  else if BLACKOUT_END ≤ scrollProgress then 1
  else 0

/-- The camera target of Experience useFrame as a function of scroll offset:
returns (xPos, yPos, zPos, lookAtY); the smoothing ref then chases this
target.  The intro phase (offset below 0.18) combines the vertical drop, the
smoothstep arc of y and lookAt, and the circular xz arc. -/
def cameraTarget (ops : MathOps) (isMobile : Bool) (offset : ℚ) : ℚ × ℚ × ℚ × ℚ :=
  let lookAtOffset : ℚ := if isMobile then -4 else 0
  let foundationCamZ : ℚ := 12
  let foundationCamY : ℚ := 6.5
  let foundationCamLookAt : ℚ := 1.2 + lookAtOffset
  let networkCamZ : ℚ := 12
  let networkCamY : ℚ := 14.5
  let networkCamLookAt : ℚ := 9.5 + lookAtOffset
  let ecosystemCamZ : ℚ := 12
  let ecosystemCamY : ℚ := 20.5
  let ecosystemCamLookAt : ℚ := 17.5 + lookAtOffset
  let targetX : ℚ := if isMobile then 24 else 16
  if offset < 0.18 then
    let t := min (offset / 0.18) 1
    if t < 0.5 then
      let dropT := t / 0.5
      (0.5, lerpQ 50 20 dropT, 1, lerpQ 0 (8 + lookAtOffset) dropT)
    else
      let arcT := (t - 0.5) / (1 - 0.5)
      let easedT := arcT * arcT * (3 - 2 * arcT)
      let yPos := lerpQ 20 foundationCamY easedT
      let lookAtY := lerpQ (8 + lookAtOffset) foundationCamLookAt easedT
      let startRadius := ops.sqrt (0.5 * 0.5 + 1 * 1)
      let endRadius := ops.sqrt (targetX * targetX + foundationCamZ * foundationCamZ)
      let radius := lerpQ startRadius endRadius easedT
      let startAngle := ops.atan2 1 0.5
      let endAngle := ops.atan2 foundationCamZ targetX
      let angle := lerpQ startAngle endAngle easedT
      (ops.cos angle * radius, yPos, ops.sin angle * radius, lookAtY)
  else if offset < 0.35 then
    (targetX, foundationCamY, foundationCamZ, foundationCamLookAt)
  else if offset < 0.38 then
    let t := (offset - 0.35) / 0.03
    (targetX, lerpQ foundationCamY networkCamY t, foundationCamZ,
      lerpQ foundationCamLookAt networkCamLookAt t)
  else if offset < 0.58 then
    (targetX, networkCamY, networkCamZ, networkCamLookAt)
  else if offset < 0.61 then
    let t := (offset - 0.58) / 0.03
    (targetX, lerpQ networkCamY ecosystemCamY t, ecosystemCamZ,
      lerpQ networkCamLookAt ecosystemCamLookAt t)
  else
    (targetX, ecosystemCamY, ecosystemCamZ, ecosystemCamLookAt)

/-- The per-line staggered growth of InterLayerLines useFrame: the group
growth g shifted by the line's phase offset and clamped to the unit
interval. -/
def lineGrowth (baseGrowth offset : ℚ) : ℚ :=
  clampQ ((baseGrowth - offset) / (1 - offset)) 0 1

theorem layer2Opacity_bounds (p : ℚ) : 0 ≤ layer2Opacity p ∧ layer2Opacity p ≤ 1 := by
  unfold layer2Opacity
  split_ifs with h1 h2 h3 h4 <;> push_neg at * <;> constructor <;>
    first
    | (norm_num; done)
    | (exact le_min (by norm_num) (by norm_num; linarith))
    | (exact min_le_left _ _)
    | (norm_num; linarith)
    | linarith

theorem layer3Opacity_bounds (p : ℚ) (hp : p ≤ 0.88) :
    0 ≤ layer3Opacity p ∧ layer3Opacity p ≤ 1 := by
  unfold layer3Opacity
  split_ifs with h1 h2 h3 h4 h5 <;> push_neg at * <;> constructor <;>
    first
    | (norm_num; done)
    | (exact le_min (by norm_num) (by norm_num; linarith))
    | (exact min_le_left _ _)
    | (norm_num; linarith)
    | linarith

theorem foundationToNetworkGrowth_bounds (p : ℚ) :
    0 ≤ foundationToNetworkGrowth p ∧ foundationToNetworkGrowth p ≤ 1 := by
  unfold foundationToNetworkGrowth LAYER_PAUSE
  split_ifs with h1 h2 h3 <;> push_neg at * <;> constructor <;>
    first
    | (norm_num; done)
    | (norm_num; linarith)
    | linarith

theorem networkToEcosystemGrowth_bounds (p : ℚ) :
    0 ≤ networkToEcosystemGrowth p ∧ networkToEcosystemGrowth p ≤ 1 := by
  unfold networkToEcosystemGrowth LAYER_PAUSE
  split_ifs with h1 h2 h3 <;> push_neg at * <;> constructor <;>
    first
    | (norm_num; done)
    | (norm_num; linarith)
    | linarith

theorem ecosystemUpwardGrowth_bounds (p : ℚ) :
    0 ≤ ecosystemUpwardGrowth p ∧ ecosystemUpwardGrowth p ≤ 1 := by
  unfold ecosystemUpwardGrowth LAYER_PAUSE
  split_ifs with h1 h2 h3 <;> push_neg at * <;> constructor <;>
    first
    | (norm_num; done)
    | (norm_num; linarith)
    | linarith

theorem foundationToNetworkOpacity_bounds (p : ℚ) :
    0 ≤ foundationToNetworkOpacity p ∧ foundationToNetworkOpacity p ≤ 1 := by
  unfold foundationToNetworkOpacity LAYER_PAUSE FADED_OPACITY lerpQ
  split_ifs with h1 h2 h3 h4 <;> push_neg at * <;> constructor <;>
    first
    | (norm_num; done)
    | (exact le_min (by norm_num) (by norm_num; linarith))
    | (exact min_le_left _ _)
    | (norm_num; linarith)
    | linarith

theorem networkToEcosystemOpacity_bounds (p : ℚ) :
    0 ≤ networkToEcosystemOpacity p ∧ networkToEcosystemOpacity p ≤ 1 := by
  unfold networkToEcosystemOpacity LAYER_PAUSE FADED_OPACITY lerpQ
  split_ifs with h1 h2 h3 h4 <;> push_neg at * <;> constructor <;>
    first
    | (norm_num; done)
    | (exact le_min (by norm_num) (by norm_num; linarith))
    | (exact min_le_left _ _)
    | (norm_num; linarith)
    | linarith

theorem ecosystemUpwardOpacity_bounds (p : ℚ) :
    0 ≤ ecosystemUpwardOpacity p ∧ ecosystemUpwardOpacity p ≤ 1 := by
  unfold ecosystemUpwardOpacity LAYER_PAUSE
  split_ifs with h1 h2 h3 <;> push_neg at * <;> constructor <;>
    first
    | (norm_num; done)
    | (exact le_min (by norm_num) (by norm_num; linarith))
    | (exact min_le_left _ _)
    | (norm_num; linarith)
    | linarith

/-- Claim C1 (amended): for every progress input, including out-of-range
inputs, the three layer opacities, the three edge-group growth fractions and
the three edge-group opacities all lie in the unit interval, except that the
layer-3 opacity only does so for progress up to 0.88: beyond 0.88 its
blackout fade-out formula keeps decreasing below 0 (the app clamps progress
to 0.82, so that regime is unreachable in normal operation). -/
theorem c1_outputs_in_unit_interval (p : ℚ) :
    (0 ≤ layer1Opacity p ∧ layer1Opacity p ≤ 1)
    ∧ (0 ≤ layer2Opacity p ∧ layer2Opacity p ≤ 1)
    ∧ (0 ≤ foundationToNetworkGrowth p ∧ foundationToNetworkGrowth p ≤ 1)
    ∧ (0 ≤ networkToEcosystemGrowth p ∧ networkToEcosystemGrowth p ≤ 1)
    ∧ (0 ≤ ecosystemUpwardGrowth p ∧ ecosystemUpwardGrowth p ≤ 1)
    ∧ (0 ≤ foundationToNetworkOpacity p ∧ foundationToNetworkOpacity p ≤ 1)
    ∧ (0 ≤ networkToEcosystemOpacity p ∧ networkToEcosystemOpacity p ≤ 1)
    ∧ (0 ≤ ecosystemUpwardOpacity p ∧ ecosystemUpwardOpacity p ≤ 1)
    ∧ (p ≤ 0.88 → 0 ≤ layer3Opacity p ∧ layer3Opacity p ≤ 1) :=
  ⟨⟨by norm_num [layer1Opacity], by norm_num [layer1Opacity]⟩,
    layer2Opacity_bounds p,
    foundationToNetworkGrowth_bounds p,
    networkToEcosystemGrowth_bounds p,
    ecosystemUpwardGrowth_bounds p,
    foundationToNetworkOpacity_bounds p,
    networkToEcosystemOpacity_bounds p,
    ecosystemUpwardOpacity_bounds p,
    fun hp => layer3Opacity_bounds p hp⟩

/-- Claim C1 counterexample: at progress 1 (an in-range input) the layer-3
opacity computed by the code is 1 - (1 - 0.85) / 0.03 = -4, outside the unit
interval. -/
theorem c1_counterexample : ¬ (0 ≤ layer3Opacity 1) := by
  norm_num [layer3Opacity]

theorem c1_witness : 0 ≤ layer3Opacity 0.5 ∧ layer3Opacity 0.5 ≤ 1 :=
  (c1_outputs_in_unit_interval 0.5).2.2.2.2.2.2.2.2 (by norm_num)

/-- Claim C5 (amended): the desktop blackout-fade target is 0 for progress
below 0.80, ramps linearly from 0 to 1 over the subrange from 0.80 to 0.82,
and holds at 1 from 0.82 onward (the spec's 0.78 and 0.88 endpoints do not
match the code's BLACKOUT_START = 0.80 and BLACKOUT_END = 0.82); throughout
that regime the camera target holds the ecosystem pose, which it has held
since progress 0.61. -/
theorem c5_blackout_target (p : ℚ) :
    (p < 0.80 → blackoutTarget p = 0)
    ∧ (0.80 ≤ p → p < 0.82 → blackoutTarget p = (p - 0.80) / (0.82 - 0.80))
    ∧ (0.82 ≤ p → blackoutTarget p = 1)
    ∧ (∀ ops : MathOps, 0.61 ≤ p → cameraTarget ops false p = (16, 20.5, 12, 17.5)) := by
  refine ⟨?_, ?_, ?_, ?_⟩
  · intro h
    unfold blackoutTarget BLACKOUT_START BLACKOUT_END
    rw [if_neg (by push_neg; intro h1; linarith), if_neg (by linarith)]
  · intro h1 h2
    unfold blackoutTarget BLACKOUT_START BLACKOUT_END
    rw [if_pos ⟨h1, h2⟩]
  · intro h
    unfold blackoutTarget BLACKOUT_START BLACKOUT_END
    rw [if_neg (by push_neg; intro h1; linarith), if_pos h]
  · intro ops h
    unfold cameraTarget
    rw [if_neg (by linarith), if_neg (by linarith), if_neg (by linarith),
      if_neg (by linarith), if_neg (by linarith)]
    norm_num

/-- Claim C5 counterexample: at progress 0.79 the claim's ramp over the
subrange from 0.78 to 0.88 would give 0.1, but the code's blackout target is
still 0 there (its ramp only starts at 0.80). -/
theorem c5_counterexample :
    blackoutTarget 0.79 = 0 ∧ ((0.79 : ℚ) - 0.78) / (0.88 - 0.78) = 0.1 ∧ (0 : ℚ) ≠ 0.1 := by
  refine ⟨?_, by norm_num, by norm_num⟩
  norm_num [blackoutTarget, BLACKOUT_START, BLACKOUT_END]

theorem c5_witness :
    blackoutTarget 0.81 = (0.81 - 0.80) / (0.82 - 0.80) ∧ blackoutTarget 0.9 = 1
      ∧ cameraTarget ratOps false 0.7 = (16, 20.5, 12, 17.5) :=
  ⟨(c5_blackout_target 0.81).2.1 (by norm_num) (by norm_num),
    (c5_blackout_target 0.9).2.2.1 (by norm_num),
    (c5_blackout_target 0.7).2.2.2 ratOps (by norm_num)⟩

/-- Claim C10: for every phase offset o in the interval from 0 up to but not
including 0.6, the per-line growth map g to clamp((g - o) / (1 - o), 0, 1) is
well defined (1 - o is positive), is 0 whenever the group growth is at most
o, is 1 whenever the group growth is at least 1, and is monotone
non-decreasing in the group growth. -/
theorem c10_line_growth_properties (o : ℚ) (h0 : 0 ≤ o) (h1 : o < 0.6) :
    0 < 1 - o
    ∧ (∀ g : ℚ, g ≤ o → lineGrowth g o = 0)
    ∧ (∀ g : ℚ, 1 ≤ g → lineGrowth g o = 1)
    ∧ (∀ g g' : ℚ, g ≤ g' → lineGrowth g o ≤ lineGrowth g' o) := by
  have hpos : 0 < 1 - o := by linarith
  refine ⟨hpos, ?_, ?_, ?_⟩
  · intro g hg
    unfold lineGrowth clampQ
    have hdiv : (g - o) / (1 - o) ≤ 0 := div_nonpos_of_nonpos_of_nonneg (by linarith) (by linarith)
    rw [min_eq_right (by linarith), max_eq_left hdiv]
  · intro g hg
    unfold lineGrowth clampQ
    have hdiv : 1 ≤ (g - o) / (1 - o) := by
      rw [le_div_iff₀ hpos]
      linarith
    rw [min_eq_left hdiv, max_eq_right (by norm_num)]
  · intro g g' hg
    unfold lineGrowth clampQ
    have hdiv : (g - o) / (1 - o) ≤ (g' - o) / (1 - o) :=
      (div_le_div_iff_of_pos_right hpos).mpr (by linarith)
    exact max_le_max le_rfl (min_le_min le_rfl hdiv)

theorem c10_witness :
    0 < 1 - (0.3 : ℚ)
    ∧ (∀ g : ℚ, g ≤ 0.3 → lineGrowth g 0.3 = 0)
    ∧ (∀ g : ℚ, 1 ≤ g → lineGrowth g 0.3 = 1)
    ∧ (∀ g g' : ℚ, g ≤ g' → lineGrowth g 0.3 ≤ lineGrowth g' 0.3) :=
  c10_line_growth_properties 0.3 (by norm_num) (by norm_num)

/-- Claim C8: each edge group's growth stays 0 for the first 0.03 of progress
after its phase begins, then ramps linearly (no easing) to reach 1 at the
phase end; throughout the growth phase the group opacity is min(1, 2 times
growth); during the subsequent hand-off camera transition (groups one and
two) the opacity is the linear interpolation from 1 down to the floor 0.1 and
stays at least 0.1, never 0; the third group has no hand-off and holds
opacity 1 from 0.78 on. -/
theorem c8_growth_opacity_curves (p : ℚ) :
    (0.18 ≤ p → p < 0.18 + LAYER_PAUSE → foundationToNetworkGrowth p = 0)
    ∧ (0.18 + LAYER_PAUSE ≤ p → p < 0.35 →
        foundationToNetworkGrowth p = (p - 0.18 - LAYER_PAUSE) / (0.17 - LAYER_PAUSE)
        ∧ foundationToNetworkOpacity p = min 1 (foundationToNetworkGrowth p * 2))
    ∧ foundationToNetworkGrowth 0.35 = 1
    ∧ (0.35 ≤ p → p < 0.38 →
        foundationToNetworkOpacity p = lerpQ 1 FADED_OPACITY ((p - 0.35) / 0.03))
    ∧ (0.35 ≤ p → FADED_OPACITY ≤ foundationToNetworkOpacity p ∧ 0 < foundationToNetworkOpacity p)
    ∧ (0.38 ≤ p → p < 0.38 + LAYER_PAUSE → networkToEcosystemGrowth p = 0)
    ∧ (0.38 + LAYER_PAUSE ≤ p → p < 0.58 →
        networkToEcosystemGrowth p = (p - 0.38 - LAYER_PAUSE) / (0.20 - LAYER_PAUSE)
        ∧ networkToEcosystemOpacity p = min 1 (networkToEcosystemGrowth p * 2))
    ∧ networkToEcosystemGrowth 0.58 = 1
    ∧ (0.58 ≤ p → p < 0.61 →
        networkToEcosystemOpacity p = lerpQ 1 FADED_OPACITY ((p - 0.58) / 0.03))
    ∧ (0.58 ≤ p → FADED_OPACITY ≤ networkToEcosystemOpacity p ∧ 0 < networkToEcosystemOpacity p)
    ∧ (0.61 ≤ p → p < 0.61 + LAYER_PAUSE → ecosystemUpwardGrowth p = 0)
    ∧ (0.61 + LAYER_PAUSE ≤ p → p < 0.78 →
        ecosystemUpwardGrowth p = (p - 0.61 - LAYER_PAUSE) / (0.17 - LAYER_PAUSE)
        ∧ ecosystemUpwardOpacity p = min 1 (ecosystemUpwardGrowth p * 2))
    ∧ ecosystemUpwardGrowth 0.78 = 1
    ∧ (0.78 ≤ p → ecosystemUpwardOpacity p = 1) := by
  refine ⟨?_, ?_, by norm_num [foundationToNetworkGrowth, LAYER_PAUSE], ?_, ?_, ?_, ?_,
    by norm_num [networkToEcosystemGrowth, LAYER_PAUSE], ?_, ?_, ?_, ?_,
    by norm_num [ecosystemUpwardGrowth, LAYER_PAUSE], ?_⟩
  · intro h1 h2
    simp only [LAYER_PAUSE] at h2
    unfold foundationToNetworkGrowth
    simp only [LAYER_PAUSE]
    split_ifs <;> first | rfl | (exfalso; linarith)
  · intro h1 h2
    simp only [LAYER_PAUSE] at h1
    constructor
    · unfold foundationToNetworkGrowth
      simp only [LAYER_PAUSE]
      split_ifs <;> first | rfl | (exfalso; linarith)
    · unfold foundationToNetworkOpacity foundationToNetworkGrowth
      simp only [LAYER_PAUSE]
      split_ifs <;> first | rfl | (exfalso; linarith)
  · intro h1 h2
    unfold foundationToNetworkOpacity
    simp only [LAYER_PAUSE]
    split_ifs <;> first | rfl | (exfalso; linarith)
  · intro h1
    unfold foundationToNetworkOpacity FADED_OPACITY lerpQ
    simp only [LAYER_PAUSE]
    split_ifs <;> constructor <;>
      first
      | (exfalso; linarith)
      | (norm_num; done)
      | (norm_num; linarith)
      | linarith
  · intro h1 h2
    simp only [LAYER_PAUSE] at h2
    unfold networkToEcosystemGrowth
    simp only [LAYER_PAUSE]
    split_ifs <;> first | rfl | (exfalso; linarith)
  · intro h1 h2
    simp only [LAYER_PAUSE] at h1
    constructor
    · unfold networkToEcosystemGrowth
      simp only [LAYER_PAUSE]
      split_ifs <;> first | rfl | (exfalso; linarith)
    · unfold networkToEcosystemOpacity networkToEcosystemGrowth
      simp only [LAYER_PAUSE]
      split_ifs <;> first | rfl | (exfalso; linarith)
  · intro h1 h2
    unfold networkToEcosystemOpacity
    simp only [LAYER_PAUSE]
    split_ifs <;> first | rfl | (exfalso; linarith)
  · intro h1
    unfold networkToEcosystemOpacity FADED_OPACITY lerpQ
    simp only [LAYER_PAUSE]
    split_ifs <;> constructor <;>
      first
      | (exfalso; linarith)
      | (norm_num; done)
      | (norm_num; linarith)
      | linarith
  · intro h1 h2
    simp only [LAYER_PAUSE] at h2
    unfold ecosystemUpwardGrowth
    simp only [LAYER_PAUSE]
    split_ifs <;> first | rfl | (exfalso; linarith)
  · intro h1 h2
    simp only [LAYER_PAUSE] at h1
    constructor
    · unfold ecosystemUpwardGrowth
      simp only [LAYER_PAUSE]
      split_ifs <;> first | rfl | (exfalso; linarith)
    · unfold ecosystemUpwardOpacity ecosystemUpwardGrowth
      simp only [LAYER_PAUSE]
      split_ifs <;> first | rfl | (exfalso; linarith)
  · intro h1
    unfold ecosystemUpwardOpacity
    simp only [LAYER_PAUSE]
    split_ifs <;> first | rfl | (exfalso; linarith)

theorem c8_witness :
    foundationToNetworkGrowth 0.19 = 0
    ∧ (foundationToNetworkGrowth 0.25 = (0.25 - 0.18 - LAYER_PAUSE) / (0.17 - LAYER_PAUSE)
        ∧ foundationToNetworkOpacity 0.25 = min 1 (foundationToNetworkGrowth 0.25 * 2))
    ∧ foundationToNetworkOpacity 0.36 = lerpQ 1 FADED_OPACITY ((0.36 - 0.35) / 0.03)
    ∧ (FADED_OPACITY ≤ networkToEcosystemOpacity 0.6 ∧ 0 < networkToEcosystemOpacity 0.6)
    ∧ networkToEcosystemGrowth 0.39 = 0
    ∧ (ecosystemUpwardGrowth 0.7 = (0.7 - 0.61 - LAYER_PAUSE) / (0.17 - LAYER_PAUSE)
        ∧ ecosystemUpwardOpacity 0.7 = min 1 (ecosystemUpwardGrowth 0.7 * 2))
    ∧ ecosystemUpwardOpacity 0.9 = 1 :=
  ⟨(c8_growth_opacity_curves 0.19).1 (by norm_num) (by norm_num [LAYER_PAUSE]),
    (c8_growth_opacity_curves 0.25).2.1 (by norm_num [LAYER_PAUSE]) (by norm_num),
    (c8_growth_opacity_curves 0.36).2.2.2.1 (by norm_num) (by norm_num),
    (c8_growth_opacity_curves 0.6).2.2.2.2.2.2.2.2.2.1 (by norm_num),
    (c8_growth_opacity_curves 0.39).2.2.2.2.2.1 (by norm_num) (by norm_num [LAYER_PAUSE]),
    (c8_growth_opacity_curves 0.7).2.2.2.2.2.2.2.2.2.2.2.1 (by norm_num [LAYER_PAUSE]) (by norm_num),
    (c8_growth_opacity_curves 0.9).2.2.2.2.2.2.2.2.2.2.2.2.2 (by norm_num)⟩

/-- Unpacking a successful validity check: the candidate satisfies the
annulus condition and is at least minDist from every accepted point. -/
theorem isValid_eq_true {ops : MathOps} {radius minDist x z : ℚ} {points : List Pt}
    (h : isValid ops radius minDist x z points = true) :
    ¬(ops.sqrt (x * x + z * z) > radius ∨ ops.sqrt (x * x + z * z) < radius * 0.15)
    ∧ ∀ p ∈ points,
        ¬(ops.sqrt ((x - p.x) * (x - p.x) + (z - p.z) * (z - p.z)) < minDist) := by
  unfold isValid at h
  dsimp only at h
  split_ifs at h with hc
  refine ⟨hc, ?_⟩
  intro p hp
  have hall := List.all_eq_true.mp h p hp
  simpa using hall

/-- The attempt loop only returns candidates that passed the validity
check. -/
theorem tryAttempts_some_valid (ops : MathOps) (radius minDist px pz : ℚ) (temp : List Pt) :
    ∀ (n st : ℕ) (nxz : ℚ × ℚ) (st2 : ℕ),
      tryAttempts ops radius minDist px pz temp n st = (some nxz, st2) →
      isValid ops radius minDist nxz.1 nxz.2 temp = true := by
  intro n
  induction n with
  | zero =>
    intro st nxz st2 h
    simp [tryAttempts] at h
  | succ n ih =>
    intro st nxz st2 h
    rw [tryAttempts] at h
    split_ifs at h with hv
    · simp only [Prod.mk.injEq, Option.some.injEq] at h
      obtain ⟨h1, h2⟩ := h
      subst h1
      simpa using hv
    · exact ih _ _ _ h

/-- The geometric invariant the loop maintains on the accepted list: it has
at least the 5 seeds, every later point satisfies the annulus condition, and
every point beyond the seeds keeps minDist from every earlier point. -/
def SamplerInv (ops : MathOps) (radius minDist : ℚ) (temp : List Pt) : Prop :=
  5 ≤ temp.length
  ∧ (∀ p ∈ temp.drop 5,
      ¬(ops.sqrt (p.x * p.x + p.z * p.z) > radius
        ∨ ops.sqrt (p.x * p.x + p.z * p.z) < radius * 0.15))
  ∧ (∀ i j : ℕ, i < j → 5 ≤ j → j < temp.length →
      ¬(ops.sqrt (((temp.getD j default).x - (temp.getD i default).x)
          * ((temp.getD j default).x - (temp.getD i default).x)
          + ((temp.getD j default).z - (temp.getD i default).z)
          * ((temp.getD j default).z - (temp.getD i default).z)) < minDist))

theorem samplerInv_push {ops : MathOps} {radius minDist : ℚ} {temp : List Pt} {np : Pt}
    (hinv : SamplerInv ops radius minDist temp)
    (hval : isValid ops radius minDist np.x np.z temp = true) :
    SamplerInv ops radius minDist (temp ++ [np]) := by
  obtain ⟨hlen, hann, hpair⟩ := hinv
  obtain ⟨hannNew, hfarNew⟩ := isValid_eq_true hval
  refine ⟨by simp; omega, ?_, ?_⟩
  · intro p hp
    rw [List.drop_append_of_le_length hlen] at hp
    rcases List.mem_append.mp hp with hp1 | hp2
    · exact hann p hp1
    · rcases List.mem_singleton.mp hp2 with rfl
      exact hannNew
  · intro i j hij h5j hjlen
    simp only [List.length_append, List.length_singleton] at hjlen
    rcases Nat.lt_or_ge j temp.length with hj | hj
    · rw [List.getD_append _ _ _ _ hj, List.getD_append _ _ _ _ (by omega)]
      exact hpair i j hij h5j hj
    · have hjeq : j = temp.length := by omega
      subst hjeq
      have hi : i < temp.length := hij
      rw [List.getD_append _ _ _ _ hi]
      have hgetj : (temp ++ [np]).getD temp.length default = np := by
        rw [List.getD_eq_getElem _ _ (by simp)]
        simp
      rw [hgetj]
      have hmem : temp.getD i default ∈ temp := by
        rw [List.getD_eq_getElem _ _ hi]
        exact List.getElem_mem _
      exact hfarNew _ hmem

/-- The loop preserves the geometric invariant: every accepted point passed
the validity check against all points accepted before it. -/
theorem sampleLoop_inv (ops : MathOps) (count : ℕ) (radius minDist : ℚ)
    (temp active : List Pt) (st : ℕ) :
    SamplerInv ops radius minDist temp →
    SamplerInv ops radius minDist (sampleLoop ops count radius minDist temp active st) := by
  induction temp, active, st using sampleLoop.induct ops count radius minDist with
  | case1 temp active st h r randIndex point nxz st2 heq ry newPoint ih =>
    intro hinv
    rw [sampleLoop, dif_pos h]
    dsimp only
    rw [heq]
    dsimp only
    exact ih (samplerInv_push hinv (tryAttempts_some_valid ops radius minDist _ _ temp _ _ _ _ heq))
  | case2 temp active st h r randIndex point st2 heq ih =>
    intro hinv
    rw [sampleLoop, dif_pos h]
    dsimp only
    rw [heq]
    dsimp only
    exact ih hinv
  | case3 temp active st h =>
    intro hinv
    rw [sampleLoop, dif_neg h]
    exact hinv

/-- Claim C4 (amended): for every count, radius, seed and every
interpretation of the math library, each point returned by the sampler
beyond the five unconditional seed points satisfies the annulus condition
(its computed distance from the origin is neither above radius nor below
0.15 radius), and every returned point beyond the seeds keeps the computed
minimum distance radius / sqrt(count) * 1.8 from every point returned before
it.  The five seed points lie on the circle of radius 0.4 radius by
construction but are never checked against the minimum distance, and pairs
of seed points violate it for small counts. -/
theorem c4_annulus_and_spacing (ops : MathOps) (count : ℕ) (radius : ℚ) (seed : ℕ) :
    (∀ p ∈ (generateNodes ops count radius seed).drop 5,
        ¬(ops.sqrt (p.x * p.x + p.z * p.z) > radius
          ∨ ops.sqrt (p.x * p.x + p.z * p.z) < radius * 0.15))
    ∧ (∀ i j : ℕ, i < j → 5 ≤ j → j < (generateNodes ops count radius seed).length →
        ¬(ops.sqrt
            ((((generateNodes ops count radius seed).getD j default).x
                - ((generateNodes ops count radius seed).getD i default).x)
              * (((generateNodes ops count radius seed).getD j default).x
                - ((generateNodes ops count radius seed).getD i default).x)
              + (((generateNodes ops count radius seed).getD j default).z
                - ((generateNodes ops count radius seed).getD i default).z)
              * (((generateNodes ops count radius seed).getD j default).z
                - ((generateNodes ops count radius seed).getD i default).z))
          < radius / ops.sqrt (count : ℚ) * 1.8)) := by
  have hseed : SamplerInv ops radius (radius / ops.sqrt (count : ℚ) * 1.8)
      (seedPoints ops radius seed).1 := by
    refine ⟨by rw [seedPoints_length], ?_, ?_⟩
    · intro p hp
      rw [show (5 : ℕ) = (seedPoints ops radius seed).1.length from
        (seedPoints_length ops radius seed).symm, List.drop_length] at hp
      simp at hp
    · intro i j hij h5j hjlen
      rw [seedPoints_length] at hjlen
      omega
  have h := sampleLoop_inv ops count radius (radius / ops.sqrt (count : ℚ) * 1.8)
    (seedPoints ops radius seed).1 (seedPoints ops radius seed).1
    (seedPoints ops radius seed).2 hseed
  exact ⟨h.2.1, h.2.2⟩

/-- Claim C4 counterexample: with count 5, radius 1 and seed 0, the first two
returned points (two of the unconditional seed points, 72 degrees apart on
the circle of radius 0.4) are at computed distance about 0.47, below the
required minimum distance 1 / sqrt(5) * 1.8, about 0.80. -/
theorem c4_counterexample :
    1 < (generateNodes ratOps 5 1 0).length
    ∧ ratOps.sqrt
        ((((generateNodes ratOps 5 1 0).getD 1 default).x
            - ((generateNodes ratOps 5 1 0).getD 0 default).x)
          * (((generateNodes ratOps 5 1 0).getD 1 default).x
            - ((generateNodes ratOps 5 1 0).getD 0 default).x)
          + (((generateNodes ratOps 5 1 0).getD 1 default).z
            - ((generateNodes ratOps 5 1 0).getD 0 default).z)
          * (((generateNodes ratOps 5 1 0).getD 1 default).z
            - ((generateNodes ratOps 5 1 0).getD 0 default).z))
      < 1 / ratOps.sqrt (5 : ℚ) * 1.8 := by
  rw [generateNodes_of_count_le ratOps 1 0 (by norm_num)]
  constructor
  · rw [seedPoints_length]
    norm_num
  · norm_num [seedPoints, seedPoint, rngStep, ratOps, ratCos, ratSin, ratSqrt, ratSqrtIter,
      ratPi]

/-- Three-dimensional distance between two points, as THREE.Vector3
distanceTo computes it. -/
def dist3 (ops : MathOps) (p q : Pt) : ℚ :=
  ops.sqrt ((p.x - q.x) * (p.x - q.x) + (p.y - q.y) * (p.y - q.y)
    + (p.z - q.z) * (p.z - q.z))

/-- The ascending-by-distance comparator the source passes to sort. -/
def distLE {α : Type} (a b : α × ℚ) : Prop := a.2 ≤ b.2

instance {α : Type} : DecidableRel (@distLE α) :=
  fun a b => inferInstanceAs (Decidable (a.2 ≤ b.2))

instance {α : Type} : IsTotal (α × ℚ) distLE := ⟨fun a b => le_total a.2 b.2⟩

instance {α : Type} : IsTrans (α × ℚ) distLE := ⟨fun _ _ _ => le_trans⟩

/-- The internal nearest-neighbor edges of a layer (LayerNodes.jsx): each
node is joined to its 2 nearest neighbors, and the edge is recorded (by the
two node indices) only when the source index is below the neighbor index. -/
def internalLines (ops : MathOps) (particles : List Pt) : List (ℕ × ℕ) :=
  (List.range particles.length).flatMap fun i =>
    let p1 := particles.getD i default
    let neighbors := ((List.range particles.length).filter fun j => decide (j ≠ i)).map
      fun j => (j, dist3 ops p1 (particles.getD j default))
    let sorted := neighbors.insertionSort distLE
    ((sorted.take 2).filter fun n => decide (i < n.1)).map fun n => (i, n.1)

/-- How many inter-layer connections each source node may get
(LayerNodes.jsx): min(3, ceil of target size over source size)). -/
def connectionsPerNode (targetLen sourceLen : ℕ) : ℕ :=
  min 3 (Int.toNat ⌈(targetLen : ℚ) / (sourceLen : ℚ)⌉)

/-- The inter-layer edges of LayerNodes.jsx, tagged with the source node
index: each source node is joined to its connectionsPerNode nearest nodes of
the target layer, but only across distances below 3 times the source layer
radius. -/
def externalLines (ops : MathOps) (radius : ℚ) (particles connectTo : List Pt) :
    List (ℕ × Pt × Pt) :=
  if connectTo.length > 0 then
    (List.range particles.length).flatMap fun i =>
      let p1 := particles.getD i default
      let nearestNodes := connectTo.map fun p2 => (p2, dist3 ops p1 p2)
      let sorted := nearestNodes.insertionSort distLE
      let k := connectionsPerNode connectTo.length particles.length
      ((sorted.take k).filter fun nd => decide (nd.2 < radius * 3)).map fun nd => (i, p1, nd.1)
  else []

/-- In a list sorted ascending by distance, an element of the first k has
fewer than k elements strictly closer. -/
theorem countP_lt_of_mem_take {α : Type} {l : List (α × ℚ)} {x : α × ℚ} {k : ℕ}
    (hs : l.Pairwise distLE) (hx : x ∈ l.take k) :
    l.countP (fun y => decide (y.2 < x.2)) < k := by
  obtain ⟨m, hm, hgx⟩ := List.getElem_of_mem hx
  have hmk : m < k := by
    have h2 := hm
    simp only [List.length_take] at h2
    omega
  have hml : m < l.length := by
    have h2 := hm
    simp only [List.length_take] at h2
    omega
  rw [List.getElem_take] at hgx
  have hcount : (l.take m ++ l.drop m).countP (fun y => decide (y.2 < x.2))
      = l.countP (fun y => decide (y.2 < x.2)) := by
    rw [List.take_append_drop]
  rw [← hcount, List.countP_append]
  have htake : (l.take m).countP (fun y => decide (y.2 < x.2)) ≤ m := by
    calc (l.take m).countP (fun y => decide (y.2 < x.2)) ≤ (l.take m).length :=
      List.countP_le_length _
    _ ≤ m := by simp [List.length_take]
  have hdrop : (l.drop m).countP (fun y => decide (y.2 < x.2)) = 0 := by
    rw [List.countP_eq_zero]
    intro y hy
    obtain ⟨t, ht, hty⟩ := List.getElem_of_mem hy
    rw [List.getElem_drop] at hty
    simp only [decide_eq_true_eq]
    rcases Nat.eq_zero_or_pos t with rfl | htpos
    · simp only [Nat.add_zero] at hty
      have hxy : x = y := hgx.symm.trans hty
      rw [hxy]
      exact lt_irrefl _
    · have hlen2 : m + t < l.length := by
        have h3 := ht
        simp only [List.length_drop] at h3
        omega
      have hrel := List.pairwise_iff_getElem.mp hs m (m + t) hml hlen2 (by omega)
      unfold distLE at hrel
      have h4 : x.2 ≤ y.2 := by
        rw [← hgx, ← hty]
        exact hrel
      exact not_lt.mpr h4
  omega

theorem filter_flatMap_first_nil {β : Type} (f : ℕ → List β) (fst : β → ℕ)
    (hf : ∀ j, ∀ b ∈ f j, fst b = j) (i : ℕ) :
    ∀ l : List ℕ, i ∉ l → ((l.flatMap f).filter fun b => decide (fst b = i)) = [] := by
  intro l
  induction l with
  | nil => intro _; rfl
  | cons a l ih =>
    intro hni
    rw [List.flatMap_cons, List.filter_append]
    have h1 : ((f a).filter fun b => decide (fst b = i)) = [] := by
      rw [List.filter_eq_nil_iff]
      intro b hb
      have := hf a b hb
      simp only [decide_eq_true_eq]
      rw [this]
      intro hai
      exact hni (hai ▸ List.mem_cons_self a l)
    rw [h1, ih (fun hmem => hni (List.mem_cons_of_mem a hmem))]
    rfl

/-- In a flat map over distinct indices whose pieces carry their index, the
edges filtered to one index all come from that one piece. -/
theorem length_filter_flatMap_le {β : Type} (f : ℕ → List β) (fst : β → ℕ)
    (hf : ∀ j, ∀ b ∈ f j, fst b = j) (i bound : ℕ) (hb : (f i).length ≤ bound) :
    ∀ l : List ℕ, l.Nodup →
      (((l.flatMap f).filter fun b => decide (fst b = i))).length ≤ bound := by
  intro l
  induction l with
  | nil => intro _; simp
  | cons a l ih =>
    intro hnd
    rw [List.flatMap_cons, List.filter_append, List.length_append]
    rcases List.nodup_cons.mp hnd with ⟨hna, hndl⟩
    by_cases hai : a = i
    · subst hai
      have h2 : (((l.flatMap f).filter fun b => decide (fst b = a))).length = 0 := by
        rw [filter_flatMap_first_nil f fst hf a l hna]
        rfl
      have h1 : (((f a).filter fun b => decide (fst b = a))).length ≤ bound :=
        le_trans (List.length_filter_le _ _) hb
      omega
    · have h1 : (((f a).filter fun b => decide (fst b = i))).length = 0 := by
        have : ((f a).filter fun b => decide (fst b = i)) = [] := by
          rw [List.filter_eq_nil_iff]
          intro b hb2
          simp only [decide_eq_true_eq]
          rw [hf a b hb2]
          exact hai
        rw [this]
        rfl
      have h2 := ih hndl
      omega

/-- Every recorded internal edge has its source index below its neighbor
index. -/
theorem internalLines_first_lt {ops : MathOps} {particles : List Pt} {e : ℕ × ℕ}
    (he : e ∈ internalLines ops particles) : e.1 < e.2 := by
  unfold internalLines at he
  obtain ⟨i, _, hei⟩ := List.mem_flatMap.mp he
  obtain ⟨n, hn, hne⟩ := List.mem_map.mp hei
  have hfilt := List.of_mem_filter hn
  simp only [decide_eq_true_eq] at hfilt
  rw [← hne]
  exact hfilt

/-- Claim C9: in the internal-edge list of a layer, every edge joins a node
to one of its 2 nearest neighbors (fewer than 2 other nodes are strictly
closer than the chosen neighbor), an edge is emitted only when the source
index is below the neighbor index, and no unordered pair appears twice: the
edge list has no duplicates and never contains both (i, j) and (j, i). -/
theorem c9_internal_edges (ops : MathOps) (particles : List Pt) :
    (∀ e ∈ internalLines ops particles,
        e.1 < e.2
        ∧ e.2 < particles.length
        ∧ ((List.range particles.length).filter fun j => decide (j ≠ e.1)).countP
            (fun j => decide (dist3 ops (particles.getD e.1 default) (particles.getD j default)
              < dist3 ops (particles.getD e.1 default) (particles.getD e.2 default))) < 2
        ∧ (e.2, e.1) ∉ internalLines ops particles)
    ∧ (internalLines ops particles).Nodup := by
  constructor
  · intro e he
    have hlt := internalLines_first_lt he
    refine ⟨hlt, ?_, ?_, ?_⟩
    · unfold internalLines at he
      obtain ⟨i, hir, hei⟩ := List.mem_flatMap.mp he
      obtain ⟨n, hn, hne⟩ := List.mem_map.mp hei
      have htake := List.mem_of_mem_filter hn
      have hsortmem := List.mem_of_mem_take htake
      have hnb := (List.perm_insertionSort distLE _).mem_iff.mp hsortmem
      obtain ⟨j, hj, hjn⟩ := List.mem_map.mp hnb
      have hjr := List.mem_range.mp (List.mem_of_mem_filter hj)
      rw [← hne, ← hjn]
      exact hjr
    · unfold internalLines at he
      obtain ⟨i, hir, hei⟩ := List.mem_flatMap.mp he
      obtain ⟨n, hn, hne⟩ := List.mem_map.mp hei
      have htake := List.mem_of_mem_filter hn
      have hsortmem := List.mem_of_mem_take htake
      have hnb := (List.perm_insertionSort distLE _).mem_iff.mp hsortmem
      obtain ⟨j, hj, hjn⟩ := List.mem_map.mp hnb
      have hsorted : List.Pairwise distLE
          ((((List.range particles.length).filter fun j => decide (j ≠ i)).map
            fun j => (j, dist3 ops (particles.getD i default)
              (particles.getD j default))).insertionSort distLE) :=
        List.sorted_insertionSort distLE _
      have hcount := countP_lt_of_mem_take hsorted htake
      have hperm := List.perm_insertionSort distLE
        (((List.range particles.length).filter fun j => decide (j ≠ i)).map
          fun j => (j, dist3 ops (particles.getD i default) (particles.getD j default)))
      rw [hperm.countP_eq, List.countP_map] at hcount
      rw [← hne]
      simp only at hcount ⊢
      rw [← hjn] at hcount
      simp only at hcount
      rw [← hjn]
      simp only
      exact hcount
    · intro hmem
      exact absurd (internalLines_first_lt hmem) (by omega)
  · unfold internalLines
    rw [List.nodup_flatMap]
    constructor
    · intro i hi
      have hfilt : (((List.range particles.length).filter fun j => decide (j ≠ i))).Nodup :=
        (List.nodup_range _).filter _
      have hpwnb : List.Pairwise (fun a b : ℕ × ℚ => a.1 ≠ b.1)
          (((List.range particles.length).filter fun j => decide (j ≠ i)).map
            fun j => (j, dist3 ops (particles.getD i default) (particles.getD j default))) := by
        apply List.Pairwise.map
        · intro a b hab
          exact hab
        · exact hfilt
      have hpwsorted := ((List.perm_insertionSort distLE _).pairwise_iff
        (fun hab => Ne.symm hab)).mpr hpwnb
      have hpwtake := hpwsorted.sublist (List.take_sublist 2 _)
      apply List.Pairwise.map (fun n : ℕ × ℚ => (i, n.1))
        (fun a b (hab : a.1 ≠ b.1) (hc : (i, a.1) = (i, b.1)) => hab (congrArg Prod.snd hc))
      exact hpwtake.sublist (List.filter_sublist _)
    · apply List.Pairwise.imp ?_ (List.nodup_range particles.length)
      intro a b hab
      intro x hxa hxb
      obtain ⟨na, hna, hea⟩ := List.mem_map.mp hxa
      obtain ⟨nb2, hnb2, heb⟩ := List.mem_map.mp hxb
      apply hab
      have h1 : x.1 = a := by rw [← hea]
      have h2 : x.1 = b := by rw [← heb]
      rw [← h1, ← h2]

/-- Claim C7: for every pair of node lists A (with layer radius r) and B, the
inter-layer edge builder emits per node of A at most
min(3, ceil of B size over A size) edges, each joining that node to one of
its nearest nodes of B (fewer than that many nodes of B are strictly closer)
and only when the computed distance is below 3 r; if either layer is empty no
edges are produced (and the builder is a total function, so no error
occurs). -/
theorem c7_interlayer_edges (ops : MathOps) (radius : ℚ) (particles connectTo : List Pt) :
    (particles = [] ∨ connectTo = [] → externalLines ops radius particles connectTo = [])
    ∧ (∀ e ∈ externalLines ops radius particles connectTo,
        e.1 < particles.length
        ∧ e.2.1 = particles.getD e.1 default
        ∧ e.2.2 ∈ connectTo
        ∧ dist3 ops e.2.1 e.2.2 < radius * 3
        ∧ ((externalLines ops radius particles connectTo).filter
            fun e2 => decide (e2.1 = e.1)).length
            ≤ connectionsPerNode connectTo.length particles.length
        ∧ connectTo.countP
            (fun q => decide (dist3 ops e.2.1 q < dist3 ops e.2.1 e.2.2))
            < connectionsPerNode connectTo.length particles.length) := by
  constructor
  · intro h
    unfold externalLines
    rcases h with rfl | rfl
    · split_ifs <;> simp
    · simp
  · intro e he
    have hpos : connectTo.length > 0 := by
      by_contra hneg
      rw [externalLines, if_neg hneg] at he
      exact absurd he (List.not_mem_nil e)
    have hunfold : externalLines ops radius particles connectTo
        = (List.range particles.length).flatMap fun i =>
            List.map (fun nd => (i, particles.getD i default, nd.1))
              (List.filter (fun nd => decide (nd.2 < radius * 3))
                (List.take (connectionsPerNode connectTo.length particles.length)
                  (List.insertionSort distLE
                    (List.map (fun q => (q, dist3 ops (particles.getD i default) q))
                      connectTo)))) := by
      rw [externalLines, if_pos hpos]
    rw [hunfold] at he
    obtain ⟨i, hir, hei⟩ := List.mem_flatMap.mp he
    obtain ⟨nd, hnd, hnde⟩ := List.mem_map.mp hei
    have htake := List.mem_of_mem_filter hnd
    have hcut := List.of_mem_filter hnd
    simp only [decide_eq_true_eq] at hcut
    have hsortmem := List.mem_of_mem_take htake
    have hnn := (List.perm_insertionSort distLE _).mem_iff.mp hsortmem
    obtain ⟨q, hq, hqn⟩ := List.mem_map.mp hnn
    have hnd1 : nd.1 = q := by rw [← hqn]
    have hnd2 : nd.2 = dist3 ops (particles.getD i default) q := by rw [← hqn]
    subst hnde
    refine ⟨List.mem_range.mp hir, rfl, ?_, ?_, ?_, ?_⟩
    · show nd.1 ∈ connectTo
      rw [hnd1]
      exact hq
    · show dist3 ops (particles.getD i default) nd.1 < radius * 3
      rw [hnd1, ← hnd2]
      exact hcut
    · show ((externalLines ops radius particles connectTo).filter
          fun e2 => decide (e2.1 = i)).length
          ≤ connectionsPerNode connectTo.length particles.length
      rw [hunfold]
      apply length_filter_flatMap_le
      · intro j b hb
        obtain ⟨nb, hnb, hnbe⟩ := List.mem_map.mp hb
        rw [← hnbe]
      · rw [List.length_map]
        calc (List.filter (fun nd => decide (nd.2 < radius * 3))
              (List.take (connectionsPerNode connectTo.length particles.length)
                (List.insertionSort distLE
                  (List.map (fun q => (q, dist3 ops (particles.getD i default) q))
                    connectTo)))).length
            ≤ (List.take (connectionsPerNode connectTo.length particles.length)
                (List.insertionSort distLE
                  (List.map (fun q => (q, dist3 ops (particles.getD i default) q))
                    connectTo))).length :=
              List.length_filter_le _ _
          _ ≤ connectionsPerNode connectTo.length particles.length :=
              List.length_take_le _ _
      · exact List.nodup_range _
    · show connectTo.countP
          (fun q2 => decide (dist3 ops (particles.getD i default) q2
            < dist3 ops (particles.getD i default) nd.1))
          < connectionsPerNode connectTo.length particles.length
      have hsorted := List.sorted_insertionSort distLE
        (List.map (fun q => (q, dist3 ops (particles.getD i default) q)) connectTo)
      have hcount := countP_lt_of_mem_take hsorted htake
      have hperm := List.perm_insertionSort distLE
        (List.map (fun q => (q, dist3 ops (particles.getD i default) q)) connectTo)
      rw [hperm.countP_eq, List.countP_map] at hcount
      rw [hnd1, ← hnd2]
      exact hcount

/-- The destructuring swap of the Fisher-Yates loop: read both entries, then
write them back crosswise. -/
def swapIdx (l : List ℕ) (i j : ℕ) : List ℕ :=
  let vi := l.getD i 0
  let vj := l.getD j 0
  (l.set i vj).set j vi

/-- Replacing the j-th entry with a and moving the old entry to the front is
a permutation of putting a in front. -/
theorem getD_cons_set_perm : ∀ (t : List ℕ) (j : ℕ) (a : ℕ), j < t.length →
    (t.getD j 0 :: t.set j a).Perm (a :: t)
  | [], j, a, h => absurd h (by simp)
  | b :: s, 0, a, _ => by
    simpa using List.Perm.swap a b s
  | b :: s, j + 1, a, h => by
    have hj : j < s.length := by
      simpa using h
    have h1 : (b :: s).getD (j + 1) 0 :: (b :: s).set (j + 1) a
        = s.getD j 0 :: b :: s.set j a := by simp
    rw [h1]
    exact (List.Perm.swap b (s.getD j 0) (s.set j a)).trans
      (((getD_cons_set_perm s j a hj).cons b).trans (List.Perm.swap a b s))

theorem swapIdx_perm : ∀ (l : List ℕ) (i j : ℕ), i < l.length → j < l.length →
    (swapIdx l i j).Perm l
  | [], i, j, hi, _ => absurd hi (by simp)
  | a :: t, 0, 0, _, _ => by
    simp [swapIdx]
  | a :: t, 0, j + 1, _, hj => by
    have hjt : j < t.length := by simpa using hj
    unfold swapIdx
    simp only [List.getD_cons_zero, List.getD_cons_succ, List.set_cons_zero,
      List.set_cons_succ]
    exact getD_cons_set_perm t j a hjt
  | a :: t, i + 1, 0, hi, _ => by
    have hit : i < t.length := by simpa using hi
    unfold swapIdx
    simp only [List.getD_cons_zero, List.getD_cons_succ, List.set_cons_zero,
      List.set_cons_succ]
    exact getD_cons_set_perm t i a hit
  | a :: t, i + 1, j + 1, hi, hj => by
    have hit : i < t.length := by simpa using hi
    have hjt : j < t.length := by simpa using hj
    unfold swapIdx
    simp only [List.getD_cons_succ, List.set_cons_succ]
    exact (swapIdx_perm t i j hit hjt).cons a

/-- The descending Fisher-Yates loop: at index i+1 draw
j = floor(rng * (i+2)) and swap, then continue at index i. -/
def fyAux : List ℕ → ℕ → ℕ → List ℕ × ℕ
  | l, st, 0 => (l, st)
  | l, st, i + 1 =>
    let r := rngStep st
    let j := ⌊r.1 * ((i + 2 : ℕ) : ℚ)⌋₊
    fyAux (swapIdx l (i + 1) j) r.2 i

/-- The Fisher-Yates shuffle of InterLayerLines.jsx, driven by the seeded
rng. -/
def fisherYates (l : List ℕ) (st : ℕ) : List ℕ × ℕ := fyAux l st (l.length - 1)

theorem fyAux_perm : ∀ (n : ℕ) (l : List ℕ) (st : ℕ), n < l.length →
    ((fyAux l st n).1).Perm l := by
  intro n
  induction n with
  | zero =>
    intro l st _
    exact List.Perm.refl l
  | succ n ih =>
    intro l st hn
    have hj : ⌊(rngStep st).1 * ((n + 2 : ℕ) : ℚ)⌋₊ < n + 2 :=
      floor_mul_length_lt (rngStep_fst_nonneg st) (rngStep_fst_lt_one st) (by omega)
    have hjl : ⌊(rngStep st).1 * ((n + 2 : ℕ) : ℚ)⌋₊ < l.length := by omega
    have hswap := swapIdx_perm l (n + 1) ⌊(rngStep st).1 * ((n + 2 : ℕ) : ℚ)⌋₊ hn hjl
    have hlen : (swapIdx l (n + 1) ⌊(rngStep st).1 * ((n + 2 : ℕ) : ℚ)⌋₊).length
        = l.length := by
      unfold swapIdx
      simp
    rw [fyAux]
    exact (ih _ _ (by omega)).trans hswap

/-- Claim C6 support: the Fisher-Yates shuffle returns a permutation of its
input for every input list and seed. -/
theorem fisherYates_perm (l : List ℕ) (st : ℕ) : ((fisherYates l st).1).Perm l := by
  unfold fisherYates
  rcases Nat.eq_zero_or_pos l.length with hz | hpos
  · rw [hz]
    exact List.Perm.refl l
  · exact fyAux_perm (l.length - 1) l st (by omega)

/-- One connecting edge of the stacked-layer visualization: world-space start
and end points and the growth-phase offset. -/
structure EdgePair where
  startPt : ℚ × ℚ × ℚ
  endPt : ℚ × ℚ × ℚ
  offset : ℚ
deriving DecidableEq, Repr

/-- The pair-building loop of nodePairs: for each index draw the random
growth offset and join the shuffled start and end nodes. -/
def pairsFrom (startY endY : ℚ) (startNodes endNodes : List Pt) (sIdx eIdx : List ℕ) :
    ℕ → List ℕ → List EdgePair
  | _, [] => []
  | st, i :: rest =>
    let sNode := startNodes.getD (sIdx.getD i 0) default
    let eNode := endNodes.getD (eIdx.getD i 0) default
    let r := rngStep st
    let offset := r.1 * 0.6
    { startPt := (sNode.x, startY + sNode.y, sNode.z),
      endPt := (eNode.x, endY + eNode.y, eNode.z),
      offset := offset }
      :: pairsFrom startY endY startNodes endNodes sIdx eIdx r.2 rest

/-- The random-subset edge builder of InterLayerLines.jsx: its rng is seeded
with startY * 1000 + endY, both layers are generated with their own seeds,
both index lists are Fisher-Yates shuffled from that stream, the first
min(count, size of A, size of B) shuffled pairs become edges, and each edge
draws its growth offset from the same stream. -/
def nodePairs (ops : MathOps) (startY endY : ℕ) (startRadius endRadius : ℚ) (count : ℕ)
    (startCount endCount : Option ℕ) (startSeed endSeed : ℕ) : List EdgePair :=
  let rng0 : ℕ := startY * 1000 + endY
  let actualStartCount := startCount.getD count
  let actualEndCount := endCount.getD count
  let startNodes := generateNodePositions ops actualStartCount startRadius startSeed
  let endNodes := generateNodePositions ops actualEndCount endRadius endSeed
  let numLines := count
  let startIndices := List.range startNodes.length
  let endIndices := List.range endNodes.length
  let fy1 := fisherYates startIndices rng0
  let fy2 := fisherYates endIndices fy1.2
  pairsFrom (startY : ℚ) (endY : ℚ) startNodes endNodes fy1.1 fy2.1 fy2.2
    (List.range (min numLines (min startNodes.length endNodes.length)))

theorem pairsFrom_length (startY endY : ℚ) (startNodes endNodes : List Pt)
    (sIdx eIdx : List ℕ) :
    ∀ (li : List ℕ) (st : ℕ),
      (pairsFrom startY endY startNodes endNodes sIdx eIdx st li).length = li.length := by
  intro li
  induction li with
  | nil => intro st; rfl
  | cons i rest ih =>
    intro st
    rw [pairsFrom]
    simp only [List.length_cons]
    rw [ih]

theorem pairsFrom_offset (startY endY : ℚ) (startNodes endNodes : List Pt)
    (sIdx eIdx : List ℕ) :
    ∀ (li : List ℕ) (st : ℕ) (pr : EdgePair),
      pr ∈ pairsFrom startY endY startNodes endNodes sIdx eIdx st li →
      0 ≤ pr.offset ∧ pr.offset < 0.6 := by
  intro li
  induction li with
  | nil =>
    intro st pr hpr
    exact absurd hpr (List.not_mem_nil pr)
  | cons i rest ih =>
    intro st pr hpr
    rw [pairsFrom] at hpr
    rcases List.mem_cons.mp hpr with rfl | htail
    · constructor
      · have := rngStep_fst_nonneg st
        simp only
        positivity
      · have h1 := rngStep_fst_lt_one st
        have h0 := rngStep_fst_nonneg st
        simp only
        nlinarith
    · exact ih _ pr htail

/-- The caller-side line-count constants of Experience: 25 percent of the
starting layer node count, rounded. -/
def LINE_PERCENTAGE : ℚ := 0.25

def foundationNodeCount : ℕ := 60

def networkNodeCount : ℕ := 120

def ecosystemNodeCount : ℕ := 200

def foundationToNetworkLineCount : ℕ :=
  (round ((foundationNodeCount : ℚ) * LINE_PERCENTAGE)).toNat

def networkToEcosystemLineCount : ℕ :=
  (round ((networkNodeCount : ℚ) * LINE_PERCENTAGE)).toNat

def ecosystemUpwardLineCount : ℕ :=
  (round ((ecosystemNodeCount : ℚ) * LINE_PERCENTAGE)).toNat

/-- Claim C6: the random-subset edge builder produces exactly
min(count, size of A, size of B) edges from the Fisher-Yates shuffled index
lists (the shuffle of any index list is a permutation of it), every edge's
growth-phase offset lies in the interval from 0 up to but not including 0.6,
and the counts the caller passes are exactly 25 percent of the starting
layer's node count. -/
theorem c6_random_subset_edges (ops : MathOps) (startY endY : ℕ)
    (startRadius endRadius : ℚ) (count : ℕ) (startCount endCount : Option ℕ)
    (startSeed endSeed : ℕ) :
    (nodePairs ops startY endY startRadius endRadius count startCount endCount
        startSeed endSeed).length
      = min count
          (min (generateNodePositions ops (startCount.getD count) startRadius
              startSeed).length
            (generateNodePositions ops (endCount.getD count) endRadius endSeed).length)
    ∧ (∀ pr ∈ nodePairs ops startY endY startRadius endRadius count startCount endCount
        startSeed endSeed, 0 ≤ pr.offset ∧ pr.offset < 0.6)
    ∧ (∀ (l : List ℕ) (st : ℕ), ((fisherYates l st).1).Perm l)
    ∧ (foundationToNetworkLineCount : ℚ) = (foundationNodeCount : ℚ) * LINE_PERCENTAGE
    ∧ (networkToEcosystemLineCount : ℚ) = (networkNodeCount : ℚ) * LINE_PERCENTAGE
    ∧ (ecosystemUpwardLineCount : ℚ) = (ecosystemNodeCount : ℚ) * LINE_PERCENTAGE := by
  refine ⟨?_, ?_, fun l st => fisherYates_perm l st, ?_, ?_, ?_⟩
  · unfold nodePairs
    rw [pairsFrom_length, List.length_range]
  · intro pr hpr
    unfold nodePairs at hpr
    exact pairsFrom_offset _ _ _ _ _ _ _ _ pr hpr
  · unfold foundationToNetworkLineCount foundationNodeCount LINE_PERCENTAGE
    norm_num [round_eq]
    rw [show Int.toNat 15 = 15 from rfl]
    norm_num
  · unfold networkToEcosystemLineCount networkNodeCount LINE_PERCENTAGE
    norm_num [round_eq]
    rw [show Int.toNat 30 = 30 from rfl]
    norm_num
  · unfold ecosystemUpwardLineCount ecosystemNodeCount LINE_PERCENTAGE
    norm_num [round_eq]
    rw [show Int.toNat 50 = 50 from rfl]
    norm_num
